import Mathlib

/-!
# web_video_server: `image_streamer.cpp`

A shallow embedding of `ImageTransportImageStreamer` (constructor, `start`,
`restreamFrame`, `stampToString`, `imageCallback`) and the properties of its
frame pipeline.

Conventions of the embedding

* The object's data members are the fields of `ImageTransportImageStreamer`, with the
  names of the source.  Member functions take the object and return the updated object.
* Code outside this translation unit (cv_bridge, OpenCV's resize and putText, the
  virtual `sendImage`, the clock, the C library's `localtime`) is a field of `Env`.
  An operation that can throw returns an `Except Exn _`; `cv::flip` has the fixed meaning
  `cv_flip`, and `Env` says on which arguments it throws.  One `Env` describes the
  surroundings during one call, so they may differ from call to call (a viewer that
  disconnects, a clock that advances).
* The calls made to `putText` and to the write primitive `sendImage` are returned as
  a list of `Call`s, in program order.  A call is listed whether or not it throws.
* `int` members are integers wrapped to 32 bits (`wrapInt32`); the `%` of C++ is
  `int_rem`: the truncating remainder `Int.tmod`, and a trap for a zero divisor and for
  `INT_MIN % -1`; a trap makes `imageCallback` return `none`.
* Float samples are rationals: arithmetic on them is exact.
* `ros::Time` is a pair of seconds and nanoseconds, compared through its value in
  nanoseconds; `ros::Duration(max_age)` is an integer number of nanoseconds; sums of
  times and durations are exact.
* The member function `initialize` of this class has an empty body and is left out.
* The two locks only order the calls; calls are modelled one after the other.
-/

namespace web_video_server

/-! ## Data model -/

/-- The exception classes told apart by the handlers of the source. -/
inductive Exn where
  | cv_bridge_Exception
  | cv_Exception
  | system_error
  | std_exception
  | other
  deriving DecidableEq, Repr

/-- A `ros::Time`: whole seconds and nanoseconds. -/
structure Time where
  sec : Nat
  nsec : Nat
  deriving DecidableEq, Repr

/-- The instant in nanoseconds. -/
def Time.toNSec (t : Time) : Int := (t.sec : Int) * 1000000000 + (t.nsec : Int)

/-- One pixel: the samples of its channels. -/
abbrev Pixel := List ℚ

/-- A `cv::Mat`: the rows of the image, top row first, each a list of pixels. -/
structure Mat where
  data : List (List Pixel)
  deriving DecidableEq

/-- The member `rows` of a matrix. -/
def Mat.rows (m : Mat) : Nat := m.data.length

/-- The member `cols` of a matrix: the length of its rows. -/
def Mat.cols (m : Mat) : Nat :=
  match m.data with
  | [] => 0
  | r :: _ => r.length

/-- All samples of the matrix, in storage order. -/
def Mat.samples (m : Mat) : List ℚ := m.data.flatten.flatten

/-- The compound assignment `m *= k`: every sample is multiplied by `k`. -/
def Mat.scale (m : Mat) (k : ℚ) : Mat :=
  ⟨m.data.map (fun row => row.map (fun px => px.map (fun v => v * k)))⟩

/-- A `sensor_msgs::Image`. -/
structure Image where
  header_stamp : Time
  encoding : String
  height : Nat
  width : Nat
  data : List Nat
  deriving DecidableEq

/-- The broken-down time that `localtime` returns, as far as `%H:%M:%S` reads it. -/
structure Tm where
  tm_hour : Fin 24
  tm_min : Fin 60
  tm_sec : Fin 61
  deriving DecidableEq

/-- The query of the request, after the lookup and conversion that
`get_query_param_value_or_default` and `has_query_param` perform: `none` stands for a
parameter that is absent or does not convert. -/
structure HttpRequest where
  topic : Option String
  width : Option Int
  height : Option Int
  invert : Bool
  default_transport : Option String
  timestamp : Bool
  skip : Option Int

/-- The surroundings of one call. -/
structure Env where
  /-- The decoder `cv_bridge::toCvCopy(msg, encoding)->image`. -/
  toCvCopy : Image → String → Except Exn Mat
  /-- Whether `cv::flip(src, dst, flipCode)` throws on this argument. -/
  flip_throws : Mat → Int → Option Exn
  /-- The resampler `cv::resize(src, dst, cv::Size(width, height))`. -/
  resize : Mat → Int → Int → Except Exn Mat
  /-- The text renderer `cv::putText(img, text, ...)` at the fixed anchor and colour. -/
  putText : Mat → String → Except Exn Mat
  /-- The write primitive `sendImage(img, time)` of the derived class. -/
  sendImage : Mat → Time → Except Exn Unit
  /-- The value of `ros::Time::now()` where the call reads the clock first. -/
  now : Time
  /-- The value of `ros::Time::now()` in the argument of `sendImage` in `restreamFrame`. -/
  now_send : Time
  /-- The C library's `localtime` on a count of seconds. -/
  localtime : Nat → Tm

/-- A call that reaches the outside of the object. -/
inductive Call where
  | putText (img : Mat) (text : String)
  | sendImage (img : Mat) (stamp : Time)
  deriving DecidableEq

/-- The data members of `ImageTransportImageStreamer` (and of its base `ImageStreamer`). -/
structure ImageTransportImageStreamer where
  topic_ : String
  inactive_ : Bool
  initialized_ : Bool
  output_width_ : Int
  output_height_ : Int
  invert_ : Bool
  default_transport_ : String
  timestamp_ : Bool
  skip_n_ : Int
  n_frame_ : Int
  output_size_image : Mat
  last_frame : Time

/-! ## Machine integers and strings -/

/-- A value wrapped into the range of a 32-bit `int`. -/
def wrapInt32 (x : Int) : Int := (x + 2147483648) % 4294967296 - 2147483648

/-- The smallest `int`. -/
def INT_MIN : Int := -2147483648

/-- The operator `%` on two `int` values: the remainder of the division that truncates
towards zero.  The division instruction traps, and the process is killed, when the
divisor is zero and when `INT_MIN` is divided by -1; the result is then `none`. -/
def int_rem (a b : Int) : Option Int :=
  if b = 0 ∨ (a = INT_MIN ∧ b = -1) then none else some (a.tmod b)

/-- The test `s.find(c) != std::string::npos` for a one-character needle. -/
def str_contains (s : String) (c : Char) : Bool := s.toList.contains c

/-- The position `s.find(c)` for a one-character needle, `none` for `npos`. -/
def str_find (s : String) (c : Char) : Option Nat := s.toList.indexOf? c

/-- The string `s.substr(pos)`, for `pos` within the string. -/
def str_substr (s : String) (pos : Nat) : String := String.mk (s.toList.drop pos)

/-- The decimal digits of a number as printed by `operator<<` and by `%d`. -/
def decimal (n : Nat) : List Char :=
  if n < 10 then [Nat.digitChar n] else decimal (n / 10) ++ [Nat.digitChar (n % 10)]
decreasing_by omega

/-- The effect of `std::setw(w) << std::setfill(c)` on the next item: it is padded on
the left up to width `w`, and never cut. -/
def setw_setfill (w : Nat) (c : Char) (item : List Char) : List Char :=
  List.replicate (w - item.length) c ++ item

/-- The output of `strftime` for the format `%H:%M:%S`, each field printed as `%02d`. -/
def strftime_HMS (timeinfo : Tm) : List Char :=
  setw_setfill 2 '0' (decimal timeinfo.tm_hour.val) ++ [':'] ++
  setw_setfill 2 '0' (decimal timeinfo.tm_min.val) ++ [':'] ++
  setw_setfill 2 '0' (decimal timeinfo.tm_sec.val)

/-- The function `stampToString(stamp)` with its default format `%H:%M:%S`. -/
def stampToString (localtime : Nat → Tm) (stamp : Time) : String :=
  let output := strftime_HMS (localtime stamp.sec)
  let ss := setw_setfill 9 '0' (decimal stamp.nsec)
  String.mk (output ++ ['.'] ++ ss.take 1)

/-! ## OpenCV operations with a fixed meaning -/

/-- The function `cv::flip(src, dst, flipCode)`: code 0 flips around the x-axis (the
order of the rows is reversed), a positive code flips around the y-axis (every row is
reversed), a negative code does both. -/
def cv_flip (src : Mat) (flipCode : Int) : Mat :=
  if flipCode = 0 then ⟨src.data.reverse⟩
  else if 0 < flipCode then ⟨src.data.map List.reverse⟩
  else ⟨(src.data.map List.reverse).reverse⟩

/-- The conversion of a `bool` argument to the `int` parameter `flipCode`. -/
def boolToInt (b : Bool) : Int := if b then 1 else 0

/-- The maximum that `cv::minMaxIdx(m, 0, &max_val)` stores: the largest sample, and 0
for a matrix without samples. -/
def minMaxIdx_max (m : Mat) : ℚ :=
  match m.samples with
  | [] => 0
  | v :: vs => vs.foldl max v

/-! ## The member functions -/

/-- The constructors of `ImageStreamer` and `ImageTransportImageStreamer`.  The matrix
and the time start as the default-constructed `cv::Mat` and `ros::Time`. -/
def ImageTransportImageStreamer.ctor (request : HttpRequest) : ImageTransportImageStreamer :=
  { topic_ := request.topic.getD ""
    inactive_ := false
    initialized_ := false
    output_width_ := request.width.getD (-1)
    output_height_ := request.height.getD (-1)
    invert_ := request.invert
    default_transport_ := request.default_transport.getD "raw"
    timestamp_ := request.timestamp
    skip_n_ := request.skip.getD 0
    n_frame_ := 0
    output_size_image := ⟨[]⟩
    last_frame := ⟨0, 0⟩ }

/-- The condition of the loop body of `start` on one advertised name. -/
def topic_matches (available_topic_name topic_ : String) : Bool :=
  available_topic_name == topic_ ||
    (str_find available_topic_name '/' == some 0 &&
      str_substr available_topic_name 1 == topic_)

/-- The member function `start()`: `available_topics` are the names that
`ros::master::getTopics` returns.  The subscription itself has no effect on the members
modelled here: its callbacks are the later calls of `imageCallback`. -/
def start (available_topics : List String) (self : ImageTransportImageStreamer) :
    ImageTransportImageStreamer :=
  available_topics.foldl
    (fun st available_topic_name =>
      if topic_matches available_topic_name st.topic_ then { st with inactive_ := false } else st)
    { self with inactive_ := true }

/-- What a `try` block, and then a call, leaves behind: the object, the calls made to
the outside, and the exception raised inside the `try` block, if any.  After
`catch_all` the field `exn` is the exception that a handler caught and logged. -/
structure Outcome where
  state : ImageTransportImageStreamer
  calls : List Call
  exn : Option Exn

/-- The handlers after a `try` block: each of them logs, sets `inactive_` and returns. -/
def catch_all (r : Outcome) : Outcome :=
  match r.exn with
  | none => r
  | some Exn.cv_bridge_Exception => { r with state := { r.state with inactive_ := true } }
  | some Exn.cv_Exception => { r with state := { r.state with inactive_ := true } }
  | some Exn.system_error => { r with state := { r.state with inactive_ := true } }
  | some Exn.std_exception => { r with state := { r.state with inactive_ := true } }
  | some Exn.other => { r with state := { r.state with inactive_ := true } }

/-- The `try` block of `restreamFrame`. -/
def restreamFrame_try (env : Env) (self : ImageTransportImageStreamer) (max_age : Int) :
    Outcome :=
  if self.last_frame.toNSec + max_age < env.now.toNSec then
    match env.sendImage self.output_size_image env.now_send with
    | .error e => ⟨self, [Call.sendImage self.output_size_image env.now_send], some e⟩
    | .ok _ => ⟨self, [Call.sendImage self.output_size_image env.now_send], none⟩
  else ⟨self, [], none⟩

/-- The member function `restreamFrame(max_age)`. -/
def restreamFrame (env : Env) (self : ImageTransportImageStreamer) (max_age : Int) :
    Outcome :=
  if self.inactive_ || !self.initialized_ then ⟨self, [], none⟩
  else catch_all (restreamFrame_try env self max_age)

/-- The first statements of the `try` block of `imageCallback`: the message is decoded
into `img`, a float image being scaled by `255 / max_val` when `max_val > 0`.  The
conversion to `cv::Mat_<float>` keeps every sample and is part of the decoder's result. -/
def decode (env : Env) (msg : Image) : Except Exn Mat :=
  if str_contains msg.encoding 'F' then
    match env.toCvCopy msg msg.encoding with
    | .error e => .error e
    | .ok float_image =>
      let max_val := minMaxIdx_max float_image
      if max_val > 0 then .ok (float_image.scale (255 / max_val)) else .ok float_image
  else env.toCvCopy msg "bgr8"

/-- The statements under `if (invert_)`: two flips in place, with the arguments `false`
and `true`. -/
def invert (env : Env) (img : Mat) : Except Exn Mat :=
  match env.flip_throws img (boolToInt false) with
  | some e => .error e
  | none =>
    let img1 := cv_flip img (boolToInt false)
    match env.flip_throws img1 (boolToInt true) with
    | some e => .error e
    | none => .ok (cv_flip img1 (boolToInt true))

/-- The `try` block of `imageCallback`, entered once the frame is not skipped. -/
def imageCallback_try (env : Env) (self : ImageTransportImageStreamer) (msg : Image) :
    Outcome :=
  match decode env msg with
  | .error e => ⟨self, [], some e⟩
  | .ok img =>
    let input_width : Int := img.cols
    let input_height : Int := img.rows
    let st := { self with output_width_ := input_width, output_height_ := input_height }
    match (if st.invert_ then invert env img else .ok img) with
    | .error e => ⟨st, [], some e⟩
    | .ok img =>
      match (if st.output_width_ ≠ input_width ∨ st.output_height_ ≠ input_height
             then env.resize img st.output_width_ st.output_height_ else .ok img) with
      | .error e => ⟨st, [], some e⟩
      | .ok sized =>
        let st := { st with output_size_image := sized }
        let st := if !st.initialized_ then { st with initialized_ := true } else st
        let st := { st with last_frame := env.now }
        if st.timestamp_ then
          let text := stampToString env.localtime st.last_frame
          match env.putText st.output_size_image text with
          | .error e => ⟨st, [Call.putText st.output_size_image text], some e⟩
          | .ok drawn =>
            let calls := [Call.putText st.output_size_image text,
                          Call.sendImage drawn msg.header_stamp]
            let st := { st with output_size_image := drawn }
            match env.sendImage drawn msg.header_stamp with
            | .error e => ⟨st, calls, some e⟩
            | .ok _ => ⟨st, calls, none⟩
        else
          match env.sendImage st.output_size_image msg.header_stamp with
          | .error e => ⟨st, [Call.sendImage st.output_size_image msg.header_stamp], some e⟩
          | .ok _ => ⟨st, [Call.sendImage st.output_size_image msg.header_stamp], none⟩

/-- The member function `imageCallback(msg)`.  The result is `none` where the program
traps in `n_frame_ % (skip_n_+1)`. -/
def imageCallback (env : Env) (self : ImageTransportImageStreamer) (msg : Image) :
    Option Outcome :=
  if self.inactive_ then some ⟨self, [], none⟩
  else
    let st := { self with n_frame_ := wrapInt32 (self.n_frame_ + 1) }
    match int_rem st.n_frame_ (wrapInt32 (st.skip_n_ + 1)) with
    | none => none
    | some r =>
      if r ≠ 0 then some ⟨st, [], none⟩
      else some (catch_all (imageCallback_try env st msg))

/-! ## Sequences of calls -/

/-- One call from outside: a frame from the subscription or a tick of the timer. -/
inductive Event where
  | frame (msg : Image)
  | watchdog (max_age : Int)

/-- One call on the object, in its own surroundings. -/
def step (self : ImageTransportImageStreamer) (ev : Env × Event) : Option Outcome :=
  match ev.2 with
  | Event.frame msg => imageCallback ev.1 self msg
  | Event.watchdog max_age => some (restreamFrame ev.1 self max_age)

/-- A sequence of calls, one after the other: the final object and the outcome of each
call, in order. -/
def run (self : ImageTransportImageStreamer) :
    List (Env × Event) → Option (ImageTransportImageStreamer × List Outcome)
  | [] => some (self, [])
  | ev :: evs =>
    match step self ev with
    | none => none
    | some o =>
      match run o.state evs with
      | none => none
      | some (st, rest) => some (st, o :: rest)

/-- The frames handed to the write primitive by a list of calls, with their stamps. -/
def writes (calls : List Call) : List (Mat × Time) :=
  calls.filterMap (fun c => match c with
    | Call.sendImage img stamp => some (img, stamp)
    | Call.putText _ _ => none)

/-- All calls of a sequence of outcomes, in order. -/
def all_calls (outs : List Outcome) : List Call := (outs.map Outcome.calls).flatten

/-- Whether every row of the matrix has `cols` pixels. -/
def Mat.rectangular (m : Mat) : Prop := ∀ row ∈ m.data, row.length = m.cols

/-- The pixel at row `r` and column `c`, if there is one. -/
def Mat.pixel (m : Mat) (r c : Nat) : Option Pixel :=
  match m.data[r]? with
  | none => none
  | some row => row[c]?

/-! ## Concrete surroundings for the examples -/

/-- A `localtime` for the examples: the time of day in UTC. -/
def utc (s : Nat) : Tm :=
  ⟨⟨s / 3600 % 24, Nat.mod_lt _ (by decide)⟩, ⟨s / 60 % 60, Nat.mod_lt _ (by decide)⟩,
   ⟨s % 60, Nat.lt_of_lt_of_le (Nat.mod_lt _ (by decide)) (by decide)⟩⟩

/-- A resampler for the examples: the matrix of `height` rows and `width` columns that
takes each pixel from the nearest position of the source above and to the left. -/
def nearest_resize (m : Mat) (width height : Int) : Mat :=
  ⟨(List.range height.toNat).map (fun i =>
    (List.range width.toNat).map (fun j =>
      (m.pixel (i * m.rows / height.toNat) (j * m.cols / width.toNat)).getD []))⟩

/-- Surroundings in which nothing throws: the decoder returns `frame`, `resize` resamples
to the size it is given, `putText` returns its input matrix, the clock reads `t`. -/
def calm (frame : Mat) (t : Time) : Env :=
  { toCvCopy := fun _ _ => .ok frame
    flip_throws := fun _ _ => none
    resize := fun m width height => .ok (nearest_resize m width height)
    putText := fun m _ => .ok m
    sendImage := fun _ _ => .ok ()
    now := t
    now_send := t
    localtime := utc }

/-- Surroundings in which the viewer is gone: as `calm`, but the write primitive
throws. -/
def disconnected (frame : Mat) (t : Time) : Env :=
  { calm frame t with sendImage := fun _ _ => .error Exn.system_error }

/-- A request for topic `cam` with the given size and skip and no flags. -/
def request_cam (width height skip : Option Int) : HttpRequest :=
  { topic := some "cam", width := width, height := height, invert := false,
    default_transport := none, timestamp := false, skip := skip }

/-- A message in encoding `bgr8` with the given stamp. -/
def bgr8_msg (stamp : Time) : Image :=
  { header_stamp := stamp, encoding := "bgr8", height := 1, width := 1, data := [] }

/-- A request for topic `cam` with the `timestamp` flag and nothing else. -/
def request_overlay : HttpRequest :=
  { topic := some "cam", width := none, height := none, invert := false,
    default_transport := none, timestamp := true, skip := none }

/-- A request for topic `cam` with the given `invert` and `timestamp` flags. -/
def request_flags (invert timestamp : Bool) : HttpRequest :=
  { topic := some "cam", width := none, height := none, invert := invert,
    default_transport := none, timestamp := timestamp, skip := none }

/-- Surroundings in which an operation throws: as `calm`, but the decoder, every flip and
`putText` throw the exception given for them, if one is given. -/
def faulty (frame : Mat) (t : Time) (decoder flip overlay : Option Exn) : Env :=
  { calm frame t with
    toCvCopy := fun _ _ =>
      match decoder with
      | some e => .error e
      | none => .ok frame
    flip_throws := fun _ _ => flip
    putText := fun m _ =>
      match overlay with
      | some e => .error e
      | none => .ok m }

/-- A session for the examples: the session for topic `cam` after `start` found the
topic and the first frame `F` arrived when the clock read `T0`. -/
def cached_session (F : Mat) (T0 : Time) : ImageTransportImageStreamer :=
  match imageCallback (calm F T0)
      (start ["/cam"] (ImageTransportImageStreamer.ctor (request_cam none none none)))
      (bgr8_msg T0) with
  | some o => o.state
  | none => start ["/cam"] (ImageTransportImageStreamer.ctor (request_cam none none none))

/-! ## Shared lemmas -/

theorem catch_all_calls (r : Outcome) : (catch_all r).calls = r.calls := by
  unfold catch_all
  split <;> rfl

theorem catch_all_exn (r : Outcome) : (catch_all r).exn = r.exn := by
  unfold catch_all
  split <;> simp_all

theorem catch_all_of_none (r : Outcome) (h : r.exn = none) : catch_all r = r := by
  unfold catch_all
  split <;> simp_all

theorem catch_all_inactive (r : Outcome) (e : Exn) (h : r.exn = some e) :
    (catch_all r).state.inactive_ = true := by
  unfold catch_all
  split <;> simp_all

theorem catch_all_state (r : Outcome) (e : Exn) (h : r.exn = some e) :
    (catch_all r).state = { r.state with inactive_ := true } := by
  unfold catch_all
  split <;> simp_all

theorem imageCallback_of_inactive (env : Env) (self : ImageTransportImageStreamer)
    (msg : Image) (h : self.inactive_ = true) :
    imageCallback env self msg = some ⟨self, [], none⟩ := by
  simp [imageCallback, h]

theorem restreamFrame_of_inactive (env : Env) (self : ImageTransportImageStreamer)
    (max_age : Int) (h : self.inactive_ = true) :
    restreamFrame env self max_age = ⟨self, [], none⟩ := by
  simp [restreamFrame, h]

theorem step_of_inactive (self : ImageTransportImageStreamer) (ev : Env × Event)
    (h : self.inactive_ = true) : step self ev = some ⟨self, [], none⟩ := by
  obtain ⟨env, e⟩ := ev
  cases e with
  | frame msg => exact imageCallback_of_inactive env self msg h
  | watchdog max_age => simp [step, restreamFrame_of_inactive env self max_age h]

theorem run_of_inactive (self : ImageTransportImageStreamer) (h : self.inactive_ = true)
    (evs : List (Env × Event)) :
    run self evs = some (self, List.replicate evs.length ⟨self, [], none⟩) := by
  induction evs with
  | nil => rfl
  | cons ev evs ih => simp [run, step_of_inactive self ev h, ih, List.replicate_succ]

theorem all_calls_replicate_nil (self : ImageTransportImageStreamer) (n : Nat) :
    all_calls (List.replicate n (⟨self, [], none⟩ : Outcome)) = [] := by
  induction n with
  | zero => rfl
  | succ n ih => simp [all_calls, List.replicate_succ]

/-! ## Claims about the inactive state and the watchdog -/

/-- C4. An inactive session is inert: `imageCallback` and `restreamFrame` return the
object unchanged in every member and make no call to the outside, whatever the message,
the maximum age and the surroundings; hence after any sequence of such calls the object
is still the same inactive object and nothing was written. -/
theorem inactive_is_inert (self : ImageTransportImageStreamer) (h : self.inactive_ = true) :
    (∀ env msg, imageCallback env self msg = some ⟨self, [], none⟩) ∧
    (∀ env max_age, restreamFrame env self max_age = ⟨self, [], none⟩) ∧
    (∀ evs, ∃ outs, run self evs = some (self, outs) ∧ outs.length = evs.length ∧
      all_calls outs = [] ∧ ∀ o ∈ outs, o.state = self) := by
  refine ⟨fun env msg => imageCallback_of_inactive env self msg h,
    fun env max_age => restreamFrame_of_inactive env self max_age h, fun evs => ?_⟩
  refine ⟨_, run_of_inactive self h evs, by simp, all_calls_replicate_nil self _, ?_⟩
  intro o ho
  rw [List.eq_of_mem_replicate ho]

/-- C4, at the session that `start` leaves inactive when no topic is advertised. -/
theorem inactive_is_inert_witness :
    (start [] (ImageTransportImageStreamer.ctor (request_cam none none none))).inactive_ = true ∧
    ((∀ env msg, imageCallback env
        (start [] (ImageTransportImageStreamer.ctor (request_cam none none none))) msg =
        some ⟨start [] (ImageTransportImageStreamer.ctor (request_cam none none none)),
              [], none⟩) ∧
     (∀ env max_age, restreamFrame env
        (start [] (ImageTransportImageStreamer.ctor (request_cam none none none))) max_age =
        ⟨start [] (ImageTransportImageStreamer.ctor (request_cam none none none)), [], none⟩) ∧
     (∀ evs, ∃ outs,
        run (start [] (ImageTransportImageStreamer.ctor (request_cam none none none))) evs =
          some (start [] (ImageTransportImageStreamer.ctor (request_cam none none none)), outs) ∧
        outs.length = evs.length ∧ all_calls outs = [] ∧
        ∀ o ∈ outs,
          o.state = start [] (ImageTransportImageStreamer.ctor (request_cam none none none)))) :=
  ⟨rfl, inactive_is_inert _ rfl⟩

/-- C3. The watchdog.  For a session that has never cached a frame (`initialized_` is
false) `restreamFrame` makes no call and changes nothing.  For an active session with a
cached frame `F = output_size_image` and last-ingested time `T0 = last_frame`, for every
maximum age `A` and every reading `now` of the clock: the write primitive is called if and
only if `now - T0 > A`; when it is called, it is called exactly once, with `F` and the
clock reading taken at the send (`now_send`), not `T0`; and whether or not the write
happens or succeeds, `last_frame`, the cached frame and the frame counter are unchanged. -/
theorem watchdog_resend (env : Env) (self : ImageTransportImageStreamer) (A : Int) :
    (self.initialized_ = false → restreamFrame env self A = ⟨self, [], none⟩) ∧
    (self.inactive_ = false → self.initialized_ = true →
      (writes (restreamFrame env self A).calls ≠ [] ↔
        env.now.toNSec - self.last_frame.toNSec > A) ∧
      (env.now.toNSec - self.last_frame.toNSec > A →
        (restreamFrame env self A).calls =
          [Call.sendImage self.output_size_image env.now_send]) ∧
      (¬ env.now.toNSec - self.last_frame.toNSec > A →
        (restreamFrame env self A).calls = []) ∧
      (restreamFrame env self A).state.last_frame = self.last_frame ∧
      (restreamFrame env self A).state.output_size_image = self.output_size_image ∧
      (restreamFrame env self A).state.n_frame_ = self.n_frame_) := by
  constructor
  · intro h
    simp [restreamFrame, h]
  · intro hact hinit
    have hr : restreamFrame env self A = catch_all (restreamFrame_try env self A) := by
      simp [restreamFrame, hact, hinit]
    have hst : ∀ r : Outcome, r.state = self →
        (catch_all r).state.last_frame = self.last_frame ∧
        (catch_all r).state.output_size_image = self.output_size_image ∧
        (catch_all r).state.n_frame_ = self.n_frame_ := by
      intro r hrs
      cases hx : r.exn with
      | none => rw [catch_all_of_none r hx, hrs]; exact ⟨rfl, rfl, rfl⟩
      | some e => rw [catch_all_state r e hx, hrs]; exact ⟨rfl, rfl, rfl⟩
    rw [hr, catch_all_calls]
    by_cases hlt : self.last_frame.toNSec + A < env.now.toNSec
    · have hgt : env.now.toNSec - self.last_frame.toNSec > A := by omega
      have hc : (restreamFrame_try env self A).calls =
          [Call.sendImage self.output_size_image env.now_send] := by
        unfold restreamFrame_try
        rw [if_pos hlt]
        split <;> rfl
      have hs : (restreamFrame_try env self A).state = self := by
        unfold restreamFrame_try
        rw [if_pos hlt]
        split <;> rfl
      refine ⟨?_, fun _ => hc, fun hn => absurd hgt hn, hst _ hs⟩
      rw [hc]
      simp [writes, hgt]
    · have hgt : ¬ env.now.toNSec - self.last_frame.toNSec > A := by omega
      have hc : (restreamFrame_try env self A).calls = [] := by
        unfold restreamFrame_try
        rw [if_neg hlt]
      have hs : (restreamFrame_try env self A).state = self := by
        unfold restreamFrame_try
        rw [if_neg hlt]
      refine ⟨?_, fun hn => absurd hn hgt, fun _ => hc, hst _ hs⟩
      rw [hc]
      simp [writes, hgt]

/-- C3, at a frame cached at second 10, a maximum age of 2 s and a clock at second 13
(a resend stamped with second 13), and at a session that never cached a frame. -/
theorem watchdog_resend_witness :
    (restreamFrame (calm ⟨[[[1]]]⟩ ⟨13, 0⟩) (cached_session ⟨[[[7]]]⟩ ⟨10, 0⟩) 2000000000).calls =
      [Call.sendImage ⟨[[[7]]]⟩ ⟨13, 0⟩] ∧
    restreamFrame (calm ⟨[[[1]]]⟩ ⟨13, 0⟩)
        (ImageTransportImageStreamer.ctor (request_cam none none none)) 2000000000 =
      ⟨ImageTransportImageStreamer.ctor (request_cam none none none), [], none⟩ :=
  ⟨((watchdog_resend (calm ⟨[[[1]]]⟩ ⟨13, 0⟩) (cached_session ⟨[[[7]]]⟩ ⟨10, 0⟩)
        2000000000).2 rfl rfl).2.1 (by decide),
   (watchdog_resend (calm ⟨[[[1]]]⟩ ⟨13, 0⟩)
        (ImageTransportImageStreamer.ctor (request_cam none none none)) 2000000000).1 rfl⟩

/-! ## The topic lookup of `start` -/

theorem indexOf_eq_zero_iff (l : List Char) (c : Char) :
    l.indexOf? c = some 0 ↔ ∃ tl, l = c :: tl := by
  cases l with
  | nil => simp [List.indexOf?]
  | cons x xs =>
    by_cases hx : x = c
    · simp [List.indexOf?, List.findIdx?_cons, hx]
    · have hx2 : ¬ c = x := fun h => hx h.symm
      simp [List.indexOf?, List.findIdx?_cons, hx, hx2]

theorem topic_matches_iff (name t : String) :
    topic_matches name t = true ↔ name = t ∨ name = "/" ++ t := by
  unfold topic_matches str_find str_substr
  simp only [Bool.or_eq_true, Bool.and_eq_true, beq_iff_eq]
  constructor
  · rintro (h | ⟨h1, h2⟩)
    · exact Or.inl h
    · right
      obtain ⟨tl, htl⟩ := (indexOf_eq_zero_iff _ _).1 h1
      rw [String.ext_iff]
      rw [String.ext_iff] at h2
      simp only [String.toList] at htl h2
      rw [htl] at h2
      simp at h2
      simp [htl, h2]
  · rintro (h | h)
    · exact Or.inl h
    · right
      subst h
      constructor
      · apply (indexOf_eq_zero_iff _ _).2
        exact ⟨t.data, by simp [String.toList]⟩
      · rw [String.ext_iff]
        simp [String.toList]

theorem start_fold (topics : List String) (st : ImageTransportImageStreamer) :
    (topics.foldl (fun st name =>
        if topic_matches name st.topic_ then { st with inactive_ := false } else st) st).topic_
      = st.topic_ ∧
    ((topics.foldl (fun st name =>
        if topic_matches name st.topic_ then { st with inactive_ := false } else st)
        st).inactive_ = false ↔
      (st.inactive_ = false ∨ ∃ name ∈ topics, topic_matches name st.topic_ = true)) := by
  induction topics generalizing st with
  | nil => simp
  | cons name rest ih =>
    rw [List.foldl_cons]
    by_cases hm : topic_matches name st.topic_ = true
    · rw [if_pos hm]
      obtain ⟨h1, h2⟩ := ih { st with inactive_ := false }
      refine ⟨h1, ?_⟩
      rw [h2]
      simp [hm]
    · rw [if_neg hm]
      obtain ⟨h1, h2⟩ := ih st
      refine ⟨h1, ?_⟩
      rw [h2]
      simp [hm]

/-- C6. The topic lookup of `start`.  For every requested topic and every list of
advertised names, the session is active after `start()` if and only if some advertised
name equals the topic or equals `/` followed by the topic, and it is inactive otherwise;
when no advertised name matches, every later sequence of `imageCallback` and
`restreamFrame` calls makes no call to the outside. -/
theorem start_topic_lookup (available_topics : List String)
    (self : ImageTransportImageStreamer) :
    ((start available_topics self).inactive_ = false ↔
      ∃ name ∈ available_topics, name = self.topic_ ∨ name = "/" ++ self.topic_) ∧
    ((start available_topics self).inactive_ = true ↔
      ¬ ∃ name ∈ available_topics, name = self.topic_ ∨ name = "/" ++ self.topic_) ∧
    ((∀ name ∈ available_topics, name ≠ self.topic_ ∧ name ≠ "/" ++ self.topic_) →
      ∀ evs, ∃ outs, run (start available_topics self) evs =
        some (start available_topics self, outs) ∧ all_calls outs = []) := by
  have key : (start available_topics self).inactive_ = false ↔
      ∃ name ∈ available_topics, name = self.topic_ ∨ name = "/" ++ self.topic_ := by
    unfold start
    rw [(start_fold available_topics { self with inactive_ := true }).2]
    simp [topic_matches_iff]
  have key2 : (start available_topics self).inactive_ = true ↔
      ¬ ∃ name ∈ available_topics, name = self.topic_ ∨ name = "/" ++ self.topic_ := by
    rw [← key]
    simp
  refine ⟨key, key2, fun hno evs => ?_⟩
  have hin : (start available_topics self).inactive_ = true := by
    rw [key2]
    rintro ⟨name, hmem, hor⟩
    rcases hor with h | h
    · exact (hno name hmem).1 h
    · exact (hno name hmem).2 h
  exact ⟨_, run_of_inactive _ hin evs, all_calls_replicate_nil _ _⟩

/-- C6, at the topic `cam` when the advertised names are `/rosout` and `/depth`. -/
theorem start_topic_lookup_witness :
    (∀ name ∈ ["/rosout", "/depth"],
      name ≠ (ImageTransportImageStreamer.ctor (request_cam none none none)).topic_ ∧
      name ≠ "/" ++ (ImageTransportImageStreamer.ctor (request_cam none none none)).topic_) ∧
    ∀ evs, ∃ outs,
      run (start ["/rosout", "/depth"]
        (ImageTransportImageStreamer.ctor (request_cam none none none))) evs =
      some (start ["/rosout", "/depth"]
        (ImageTransportImageStreamer.ctor (request_cam none none none)), outs) ∧
      all_calls outs = [] :=
  ⟨by decide,
   (start_topic_lookup ["/rosout", "/depth"]
      (ImageTransportImageStreamer.ctor (request_cam none none none))).2.2 (by decide)⟩

/-! ## The text of the overlay -/

theorem decimal_of_lt_ten (n : Nat) (h : n < 10) : decimal n = [Nat.digitChar n] := by
  rw [decimal, if_pos h]

theorem decimal_of_ge_ten (n : Nat) (h : 10 ≤ n) :
    decimal n = decimal (n / 10) ++ [Nat.digitChar (n % 10)] := by
  rw [decimal, if_neg (by omega)]

theorem decimal_length_le (w : Nat) : ∀ n, n < 10 ^ (w + 1) → (decimal n).length ≤ w + 1 := by
  induction w with
  | zero =>
    intro n hn
    rw [decimal_of_lt_ten n (by simpa using hn)]
    simp
  | succ w ih =>
    intro n hn
    by_cases h : n < 10
    · rw [decimal_of_lt_ten n h]
      simp
    · rw [decimal_of_ge_ten n (by omega)]
      have h2 : n / 10 < 10 ^ (w + 1) := by
        rw [Nat.div_lt_iff_lt_mul (by decide)]
        rw [pow_succ] at hn
        exact hn
      have := ih (n / 10) h2
      simp
      omega

theorem decimal_leading (w : Nat) : ∀ n, 10 ^ w ≤ n → n < 10 ^ (w + 1) →
    ∃ tl, decimal n = Nat.digitChar (n / 10 ^ w) :: tl ∧ tl.length = w := by
  induction w with
  | zero =>
    intro n _ hn
    rw [decimal_of_lt_ten n (by simpa using hn)]
    exact ⟨[], by simp, rfl⟩
  | succ w ih =>
    intro n hlo hhi
    have hpos : 1 ≤ 10 ^ w := Nat.one_le_pow _ _ (by decide)
    have h10 : 10 ≤ n := by
      rw [pow_succ] at hlo
      omega
    rw [decimal_of_ge_ten n h10]
    have h1 : 10 ^ w ≤ n / 10 := by
      rw [Nat.le_div_iff_mul_le (by decide)]
      rw [pow_succ] at hlo
      exact hlo
    have h2 : n / 10 < 10 ^ (w + 1) := by
      rw [Nat.div_lt_iff_lt_mul (by decide)]
      rw [pow_succ 10 (w + 1)] at hhi
      exact hhi
    obtain ⟨tl, htl, hlen⟩ := ih (n / 10) h1 h2
    refine ⟨tl ++ [Nat.digitChar (n % 10)], ?_, by simp [hlen]⟩
    rw [htl, Nat.div_div_eq_div_mul, pow_succ, Nat.mul_comm 10 (10 ^ w)]
    rfl

theorem two_digits (k : Nat) (h : k < 100) :
    setw_setfill 2 '0' (decimal k) = [Nat.digitChar (k / 10), Nat.digitChar (k % 10)] := by
  by_cases h10 : k < 10
  · rw [decimal_of_lt_ten k h10]
    have h1 : k / 10 = 0 := by omega
    have h2 : k % 10 = k := by omega
    rw [h1, h2]
    rfl
  · rw [decimal_of_ge_ten k (by omega), decimal_of_lt_ten (k / 10) (by omega)]
    rfl

theorem first_of_nine (n : Nat) (h : n < 1000000000) :
    (setw_setfill 9 '0' (decimal n)).take 1 = [Nat.digitChar (n / 100000000)] := by
  by_cases hlo : n < 100000000
  · have hlen : (decimal n).length ≤ 8 := decimal_length_le 7 n (by norm_num; exact hlo)
    have hz : n / 100000000 = 0 := by omega
    obtain ⟨k, hk⟩ : ∃ k, 9 - (decimal n).length = k + 1 := ⟨8 - (decimal n).length, by omega⟩
    rw [hz]
    unfold setw_setfill
    rw [hk, List.replicate_succ]
    rfl
  · obtain ⟨tl, htl, hlen⟩ := decimal_leading 8 n (by norm_num; omega) (by norm_num; exact h)
    unfold setw_setfill
    rw [htl]
    simp [hlen]

theorem stampToString_chars (localtime : Nat → Tm) (s n : Nat) (hn : n < 1000000000) :
    stampToString localtime ⟨s, n⟩ =
      String.mk [Nat.digitChar ((localtime s).tm_hour.val / 10),
                 Nat.digitChar ((localtime s).tm_hour.val % 10), ':',
                 Nat.digitChar ((localtime s).tm_min.val / 10),
                 Nat.digitChar ((localtime s).tm_min.val % 10), ':',
                 Nat.digitChar ((localtime s).tm_sec.val / 10),
                 Nat.digitChar ((localtime s).tm_sec.val % 10), '.',
                 Nat.digitChar (n / 100000000)] := by
  unfold stampToString strftime_HMS
  simp only []
  rw [first_of_nine n hn, two_digits _ (by omega), two_digits _ (by omega),
    two_digits _ (by omega)]
  rfl

/-- C8. The format of the overlay text.  For every stamp with seconds `s` and nanoseconds
`n < 10^9`, `stampToString` returns the two-digit hour, minute and second of
`localtime(s)` separated by colons, then a point and exactly one digit, `n / 10^8`
rounded down; the result has 10 characters.  At 13:05:07 with `n = 250000000` it is
`13:05:07.2`, and `n = 999999999` gives the digit 9. -/
theorem stampToString_format (localtime : Nat → Tm) (s n : Nat) (hn : n < 1000000000) :
    stampToString localtime ⟨s, n⟩ =
      String.mk [Nat.digitChar ((localtime s).tm_hour.val / 10),
                 Nat.digitChar ((localtime s).tm_hour.val % 10), ':',
                 Nat.digitChar ((localtime s).tm_min.val / 10),
                 Nat.digitChar ((localtime s).tm_min.val % 10), ':',
                 Nat.digitChar ((localtime s).tm_sec.val / 10),
                 Nat.digitChar ((localtime s).tm_sec.val % 10), '.',
                 Nat.digitChar (n / 100000000)] ∧
    (stampToString localtime ⟨s, n⟩).length = 10 ∧
    (localtime s = ⟨13, 5, 7⟩ → n = 250000000 →
      stampToString localtime ⟨s, n⟩ = "13:05:07.2") ∧
    (n = 999999999 → (stampToString localtime ⟨s, n⟩).toList.getLast? = some '9') := by
  have key := stampToString_chars localtime s n hn
  refine ⟨key, ?_, ?_, ?_⟩
  · rw [key]
    rfl
  · intro hlt h
    rw [key, hlt, h]
    decide
  · intro h
    rw [key, h]
    rfl

/-- C8, at second 47107 of the day in UTC, which is 13:05:07, with 250000000 ns, and
with 999999999 ns. -/
theorem stampToString_format_witness :
    stampToString utc ⟨47107, 250000000⟩ = "13:05:07.2" ∧
    (stampToString utc ⟨47107, 250000000⟩).length = 10 ∧
    stampToString utc ⟨47107, 999999999⟩ = "13:05:07.9" ∧
    (stampToString utc ⟨47107, 999999999⟩).toList.getLast? = some '9' :=
  ⟨(stampToString_format utc 47107 250000000 (by decide)).2.2.1 (by decide) rfl,
   (stampToString_format utc 47107 250000000 (by decide)).2.1,
   (stampToString_format utc 47107 999999999 (by decide)).1,
   (stampToString_format utc 47107 999999999 (by decide)).2.2.2 rfl⟩

/-! ## The invert step -/

theorem cv_flip_twice (img : Mat) :
    cv_flip (cv_flip img (boolToInt false)) (boolToInt true) =
      ⟨img.data.reverse.map List.reverse⟩ := by
  simp [cv_flip, boolToInt]

theorem rot_involutive (img : Mat) :
    (⟨(Mat.mk (img.data.reverse.map List.reverse)).data.reverse.map List.reverse⟩ : Mat) = img := by
  cases img with
  | mk d =>
    simp only [Mat.mk.injEq]
    rw [← List.map_reverse, List.reverse_reverse, List.map_map]
    have : (List.reverse ∘ List.reverse : List Pixel → List Pixel) = id := by
      funext l
      simp
    rw [this, List.map_id]

theorem rot_cols (img : Mat) (h : img.rectangular) :
    (Mat.mk (img.data.reverse.map List.reverse)).cols = img.cols := by
  cases img with
  | mk d =>
    unfold Mat.rectangular at h
    simp only at h
    rcases List.eq_nil_or_concat d with hd | ⟨init, last, hd⟩
    · subst hd
      rfl
    · have hl := h last (by simp [hd])
      subst hd
      rw [← hl]
      simp [Mat.cols]

theorem rot_pixel (img : Mat) (h : img.rectangular) (r c : Nat) (hr : r < img.rows)
    (hc : c < img.cols) :
    ∃ p, img.pixel r c = some p ∧
      (Mat.mk (img.data.reverse.map List.reverse)).pixel (img.rows - 1 - r) (img.cols - 1 - c)
        = some p := by
  cases img with
  | mk d =>
    unfold Mat.rows at hr
    simp only at hr
    have hrow : d[r]? = some d[r] := List.getElem?_eq_getElem hr
    have hlen : (d[r]).length = (Mat.mk d).cols := h _ (List.getElem_mem _)
    have hc2 : c < (d[r]).length := by omega
    refine ⟨(d[r])[c], ?_, ?_⟩
    · simp [Mat.pixel, hrow, List.getElem?_eq_getElem hc2]
    · have h1 : d.reverse[d.length - 1 - r]? = some d[r] := by
        rw [List.getElem?_reverse (by omega)]
        have : d.length - 1 - (d.length - 1 - r) = r := by omega
        rw [this, hrow]
      have h2 : (d[r]).reverse[(Mat.mk d).cols - 1 - c]? = some (d[r])[c] := by
        rw [List.getElem?_reverse (by omega)]
        have : (d[r]).length - 1 - ((Mat.mk d).cols - 1 - c) = c := by omega
        rw [this, List.getElem?_eq_getElem hc2]
      unfold Mat.pixel Mat.rows
      simp only
      rw [List.getElem?_map, h1]
      exact h2

/-- C9. The invert step is a rotation by 180 degrees and an involution.  When no flip
throws, the two flips of a frame with `H` rows and `W` columns give a frame of the same
size in which the pixel of row `r` and column `c` stands at row `H-1-r` and column
`W-1-c`, and inverting the result gives the original frame back. -/
theorem invert_is_rotation (env : Env) (img : Mat)
    (hflip : ∀ m code, env.flip_throws m code = none) (hrect : img.rectangular) :
    ∃ out, invert env img = .ok out ∧
      out.rows = img.rows ∧ out.cols = img.cols ∧
      (∀ r c, r < img.rows → c < img.cols →
        ∃ p, img.pixel r c = some p ∧
          out.pixel (img.rows - 1 - r) (img.cols - 1 - c) = some p) ∧
      invert env out = .ok img := by
  have hinv : ∀ m, invert env m = .ok ⟨m.data.reverse.map List.reverse⟩ := by
    intro m
    unfold invert
    simp only [hflip, cv_flip_twice]
  refine ⟨⟨img.data.reverse.map List.reverse⟩, hinv img, ?_, rot_cols img hrect, ?_, ?_⟩
  · simp [Mat.rows]
  · intro r c hr hc
    exact rot_pixel img hrect r c hr hc
  · rw [hinv, rot_involutive]

/-- C9, at a frame of two rows and three columns. -/
theorem invert_is_rotation_witness :
    ∃ out, invert (calm ⟨[]⟩ ⟨0, 0⟩) ⟨[[[1], [2], [3]], [[4], [5], [6]]]⟩ = .ok out ∧
      out.rows = 2 ∧ out.cols = 3 ∧
      (∀ r c, r < 2 → c < 3 →
        ∃ p, (Mat.mk [[[1], [2], [3]], [[4], [5], [6]]]).pixel r c = some p ∧
          out.pixel (2 - 1 - r) (3 - 1 - c) = some p) ∧
      invert (calm ⟨[]⟩ ⟨0, 0⟩) out = .ok ⟨[[[1], [2], [3]], [[4], [5], [6]]]⟩ :=
  invert_is_rotation (calm ⟨[]⟩ ⟨0, 0⟩) ⟨[[[1], [2], [3]], [[4], [5], [6]]]⟩
    (fun _ _ => rfl) (by simp [Mat.rectangular, Mat.cols])

/-! ## The scaling of float images -/

theorem foldl_max_ge (vs : List ℚ) : ∀ v, v ≤ vs.foldl max v ∧ ∀ x ∈ vs, x ≤ vs.foldl max v := by
  induction vs with
  | nil => intro v; simp
  | cons a as ih =>
    intro v
    rw [List.foldl_cons]
    obtain ⟨h1, h2⟩ := ih (max v a)
    refine ⟨le_trans (le_max_left v a) h1, ?_⟩
    intro x hx
    rcases List.mem_cons.1 hx with rfl | hx
    · exact le_trans (le_max_right v x) h1
    · exact h2 x hx

theorem foldl_max_mem (vs : List ℚ) : ∀ v, vs.foldl max v = v ∨ vs.foldl max v ∈ vs := by
  induction vs with
  | nil => intro v; simp
  | cons a as ih =>
    intro v
    rw [List.foldl_cons]
    rcases ih (max v a) with h | h
    · rcases max_choice v a with hm | hm
      · left; rw [h, hm]
      · right; rw [h, hm]; simp
    · right
      exact List.mem_cons_of_mem _ h

theorem minMaxIdx_max_eq (m : Mat) (M : ℚ) (hmem : M ∈ m.samples)
    (hmax : ∀ v ∈ m.samples, v ≤ M) : minMaxIdx_max m = M := by
  unfold minMaxIdx_max
  cases hs : m.samples with
  | nil => rw [hs] at hmem; cases hmem
  | cons v vs =>
    simp only
    rw [hs] at hmem hmax
    apply le_antisymm
    · rcases foldl_max_mem vs v with h | h
      · rw [h]; exact hmax v (by simp)
      · exact hmax _ (List.mem_cons_of_mem _ h)
    · rcases List.mem_cons.1 hmem with rfl | h
      · exact (foldl_max_ge vs M).1
      · exact (foldl_max_ge vs v).2 M h

theorem scale_samples (m : Mat) (k : ℚ) :
    (m.scale k).samples = m.samples.map (fun v => v * k) := by
  unfold Mat.scale Mat.samples
  simp [List.map_flatten, List.map_map, Function.comp_def]

/-- C10. The normalisation of float images, over exact arithmetic.  For a message whose
encoding contains `F` and whose decoded samples have the maximum `M`: if `M > 0` every
sample `v` becomes `v * (255 / M)`, so that 255 is among the output samples and none
exceeds 255; if `M ≤ 0` the samples are left as they are. -/
theorem float_normalisation (env : Env) (msg : Image) (float_image : Mat) (M : ℚ)
    (hF : str_contains msg.encoding 'F' = true)
    (hdec : env.toCvCopy msg msg.encoding = .ok float_image)
    (hmem : M ∈ float_image.samples) (hmax : ∀ v ∈ float_image.samples, v ≤ M) :
    ∃ img, decode env msg = .ok img ∧
      (0 < M →
        img = float_image.scale (255 / M) ∧
        img.samples = float_image.samples.map (fun v => v * (255 / M)) ∧
        255 ∈ img.samples ∧ ∀ o ∈ img.samples, o ≤ 255) ∧
      (M ≤ 0 → img = float_image) := by
  have hM : minMaxIdx_max float_image = M := minMaxIdx_max_eq float_image M hmem hmax
  by_cases hpos : 0 < M
  · refine ⟨float_image.scale (255 / M), ?_, ?_, fun h => absurd hpos (not_lt.2 h)⟩
    · unfold decode
      rw [if_pos hF, hdec]
      simp only [hM]
      rw [if_pos hpos]
    · intro _
      refine ⟨rfl, scale_samples _ _, ?_, ?_⟩
      · rw [scale_samples]
        refine List.mem_map.2 ⟨M, hmem, ?_⟩
        field_simp
      · intro o ho
        rw [scale_samples] at ho
        obtain ⟨v, hv, rfl⟩ := List.mem_map.1 ho
        have h1 : v * (255 / M) ≤ M * (255 / M) :=
          mul_le_mul_of_nonneg_right (hmax v hv) (by positivity)
        have h2 : M * (255 / M) = 255 := by field_simp
        linarith
  · refine ⟨float_image, ?_, fun h => absurd h hpos, fun _ => rfl⟩
    unfold decode
    rw [if_pos hF, hdec]
    simp only [hM]
    rw [if_neg hpos]

/-- C10, at a `32FC1` frame with the samples 1, 4, 2, 0 (maximum 4) and at one with the
samples 0 and -1 (maximum 0). -/
theorem float_normalisation_witness :
    (∃ img, decode (calm ⟨[[[1], [4]], [[2], [0]]]⟩ ⟨0, 0⟩)
        ⟨⟨0, 0⟩, "32FC1", 2, 2, []⟩ = .ok img ∧
      img = (Mat.mk [[[1], [4]], [[2], [0]]]).scale (255 / 4) ∧
      (255 : ℚ) ∈ img.samples ∧ ∀ o ∈ img.samples, o ≤ 255) ∧
    (∃ img, decode (calm ⟨[[[0], [-1]]]⟩ ⟨0, 0⟩) ⟨⟨0, 0⟩, "32FC1", 1, 2, []⟩ = .ok img ∧
      img = ⟨[[[0], [-1]]]⟩) := by
  obtain ⟨img, h1, h2, _⟩ := float_normalisation (calm ⟨[[[1], [4]], [[2], [0]]]⟩ ⟨0, 0⟩)
    ⟨⟨0, 0⟩, "32FC1", 2, 2, []⟩ ⟨[[[1], [4]], [[2], [0]]]⟩ 4 (by decide) rfl
    (by simp [Mat.samples]) (by simp [Mat.samples]; norm_num)
  obtain ⟨img0, h3, _, h4⟩ := float_normalisation (calm ⟨[[[0], [-1]]]⟩ ⟨0, 0⟩)
    ⟨⟨0, 0⟩, "32FC1", 1, 2, []⟩ ⟨[[[0], [-1]]]⟩ 0 (by decide) rfl
    (by simp [Mat.samples]) (by simp [Mat.samples])
  exact ⟨⟨img, h1, (h2 (by norm_num)).1, (h2 (by norm_num)).2.2.1, (h2 (by norm_num)).2.2.2⟩,
    ⟨img0, h3, h4 (le_refl 0)⟩⟩

/-! ## The paths through the `try` block of `imageCallback` -/

theorem catch_all_last_frame (r : Outcome) :
    (catch_all r).state.last_frame = r.state.last_frame := by
  cases hx : r.exn with
  | none => rw [catch_all_of_none r hx]
  | some e => rw [catch_all_state r e hx]

theorem catch_all_output_size_image (r : Outcome) :
    (catch_all r).state.output_size_image = r.state.output_size_image := by
  cases hx : r.exn with
  | none => rw [catch_all_of_none r hx]
  | some e => rw [catch_all_state r e hx]

theorem try_decode_error (env : Env) (st : ImageTransportImageStreamer) (msg : Image)
    (e : Exn) (hd : decode env msg = .error e) :
    imageCallback_try env st msg = ⟨st, [], some e⟩ := by
  unfold imageCallback_try
  rw [hd]

theorem try_invert_error (env : Env) (st : ImageTransportImageStreamer) (msg : Image)
    (img : Mat) (e : Exn) (hd : decode env msg = .ok img)
    (hi : (if st.invert_ then invert env img else .ok img) = .error e) :
    (imageCallback_try env st msg).exn = some e ∧ (imageCallback_try env st msg).calls = [] := by
  unfold imageCallback_try
  rw [hd]
  simp [hi]

theorem try_putText_error (env : Env) (st : ImageTransportImageStreamer) (msg : Image)
    (img sized : Mat) (e : Exn) (hd : decode env msg = .ok img)
    (hi : (if st.invert_ then invert env img else .ok img) = .ok sized)
    (hts : st.timestamp_ = true)
    (hp : env.putText sized (stampToString env.localtime env.now) = .error e) :
    (imageCallback_try env st msg).exn = some e ∧
    (imageCallback_try env st msg).calls =
      [Call.putText sized (stampToString env.localtime env.now)] ∧
    (imageCallback_try env st msg).state.last_frame = env.now := by
  unfold imageCallback_try
  rw [hd]
  simp only [hi, ne_eq, not_true_eq_false, or_self, if_false, hts, if_true]
  cases hini : st.initialized_ <;> simp [hp]

theorem try_sent (env : Env) (st : ImageTransportImageStreamer) (msg : Image)
    (img sized sent : Mat) (hd : decode env msg = .ok img)
    (hi : (if st.invert_ then invert env img else .ok img) = .ok sized)
    (hp : (if st.timestamp_ then env.putText sized (stampToString env.localtime env.now)
      else .ok sized) = .ok sent) :
    (imageCallback_try env st msg).calls =
      (if st.timestamp_ then
        [Call.putText sized (stampToString env.localtime env.now),
         Call.sendImage sent msg.header_stamp]
       else [Call.sendImage sent msg.header_stamp]) ∧
    (imageCallback_try env st msg).exn =
      (match env.sendImage sent msg.header_stamp with
       | .error e => some e
       | .ok _ => none) ∧
    (imageCallback_try env st msg).state.output_size_image = sent ∧
    (imageCallback_try env st msg).state.last_frame = env.now ∧
    (imageCallback_try env st msg).state.initialized_ = true ∧
    (imageCallback_try env st msg).state.inactive_ = st.inactive_ ∧
    (imageCallback_try env st msg).state.skip_n_ = st.skip_n_ ∧
    (imageCallback_try env st msg).state.n_frame_ = st.n_frame_ ∧
    (imageCallback_try env st msg).state.invert_ = st.invert_ ∧
    (imageCallback_try env st msg).state.timestamp_ = st.timestamp_ := by
  unfold imageCallback_try
  rw [hd]
  simp only [hi, ne_eq, not_true_eq_false, or_self, if_false]
  cases hts : st.timestamp_
  · simp only [hts, Bool.false_eq_true, if_false, Except.ok.injEq] at hp
    subst hp
    cases hini : st.initialized_ <;> cases hs : env.sendImage sized msg.header_stamp <;>
      simp [hts, hs]
  · simp only [hts, if_true] at hp
    cases hini : st.initialized_ <;> cases hs : env.sendImage sent msg.header_stamp <;>
      simp [hts, hp, hs]

theorem imageCallback_accepted (env : Env) (self : ImageTransportImageStreamer) (msg : Image)
    (hact : self.inactive_ = false)
    (hacc : int_rem (wrapInt32 (self.n_frame_ + 1)) (wrapInt32 (self.skip_n_ + 1)) = some 0) :
    imageCallback env self msg = some (catch_all (imageCallback_try env
      { self with n_frame_ := wrapInt32 (self.n_frame_ + 1) } msg)) := by
  unfold imageCallback
  rw [if_neg (by simp [hact])]
  simp only [hacc]
  simp

/-- The resize branch of `imageCallback` is never taken: the outcome of the `try` block
is the same whatever `cv::resize` would do. -/
theorem resize_never_called (env : Env) (resize2 : Mat → Int → Int → Except Exn Mat)
    (st : ImageTransportImageStreamer) (msg : Image) :
    imageCallback_try { env with resize := resize2 } st msg = imageCallback_try env st msg := by
  have hd : decode { env with resize := resize2 } msg = decode env msg := rfl
  have hi : ∀ m, invert { env with resize := resize2 } m = invert env m := fun _ => rfl
  unfold imageCallback_try
  simp only [hd, hi, ne_eq, not_true_eq_false, or_self, if_false]

/-- C2, the code at two inputs.  A session requested with `width=1&height=1`, in
surroundings whose `resize` would deliver a 1 x 1 frame, sends a frame of 2 rows and 3
columns at its native size, 3 x 2, and overwrites the requested size in its members.  A
session with no requested size that receives a 1 x 1 frame and then a 3 x 2 frame sends
the second one at 3 x 2, not at the size of the first. -/
theorem sent_size_is_native_size :
    (∃ o, imageCallback (calm ⟨[[[1], [2], [3]], [[4], [5], [6]]]⟩ ⟨13, 0⟩)
        (start ["/cam"] (ImageTransportImageStreamer.ctor (request_cam (some 1) (some 1) none)))
        (bgr8_msg ⟨12, 0⟩) = some o ∧
      o.exn = none ∧
      (calm ⟨[[[1], [2], [3]], [[4], [5], [6]]]⟩ ⟨13, 0⟩).resize
        ⟨[[[1], [2], [3]], [[4], [5], [6]]]⟩ 1 1 = .ok ⟨[[[1]]]⟩ ∧
      o.calls = [Call.sendImage ⟨[[[1], [2], [3]], [[4], [5], [6]]]⟩ ⟨12, 0⟩] ∧
      o.state.output_width_ = 3 ∧ o.state.output_height_ = 2) ∧
    (∃ st o1 o2, run
        (start ["/cam"] (ImageTransportImageStreamer.ctor (request_cam none none none)))
        [(calm ⟨[[[9]]]⟩ ⟨13, 0⟩, Event.frame (bgr8_msg ⟨12, 0⟩)),
         (calm ⟨[[[1], [2], [3]], [[4], [5], [6]]]⟩ ⟨14, 0⟩, Event.frame (bgr8_msg ⟨13, 0⟩))]
        = some (st, [o1, o2]) ∧
      o1.exn = none ∧ o2.exn = none ∧
      o1.calls = [Call.sendImage ⟨[[[9]]]⟩ ⟨12, 0⟩] ∧
      o1.state.output_width_ = 1 ∧ o1.state.output_height_ = 1 ∧
      o2.calls = [Call.sendImage ⟨[[[1], [2], [3]], [[4], [5], [6]]]⟩ ⟨13, 0⟩] ∧
      o2.state.output_width_ = 3 ∧ o2.state.output_height_ = 2) :=
  ⟨⟨_, rfl, rfl, rfl, rfl, rfl, rfl⟩,
    ⟨_, _, _, rfl, rfl, rfl, rfl, rfl, rfl, rfl, rfl, rfl⟩⟩

theorem imageCallback_cases (env : Env) (self : ImageTransportImageStreamer) (msg : Image)
    (o : Outcome) (h : imageCallback env self msg = some o) :
    (o.calls = [] ∧ o.exn = none) ∨
    o = catch_all (imageCallback_try env
      { self with n_frame_ := wrapInt32 (self.n_frame_ + 1) } msg) := by
  unfold imageCallback at h
  split at h
  · cases h
    exact Or.inl ⟨rfl, rfl⟩
  · simp only at h
    split at h
    · cases h
    · split at h
      · cases h
        exact Or.inl ⟨rfl, rfl⟩
      · cases h
        exact Or.inr rfl

theorem imageCallback_eq_none (env : Env) (self : ImageTransportImageStreamer) (msg : Image) :
    imageCallback env self msg = none ↔
      (self.inactive_ = false ∧
        (wrapInt32 (self.skip_n_ + 1) = 0 ∨
          (wrapInt32 (self.n_frame_ + 1) = INT_MIN ∧ wrapInt32 (self.skip_n_ + 1) = -1))) := by
  unfold imageCallback int_rem
  cases hi : self.inactive_
  · by_cases hc : wrapInt32 (self.skip_n_ + 1) = 0 ∨
        (wrapInt32 (self.n_frame_ + 1) = INT_MIN ∧ wrapInt32 (self.skip_n_ + 1) = -1)
    · simp [hc]
    · simp only [Bool.false_eq_true, if_false, if_neg hc, true_and]
      constructor
      · intro h
        split at h <;> cases h
      · intro h
        exact absurd h hc
  · simp

theorem decode_error (env : Env) (msg : Image) (e : Exn)
    (h : env.toCvCopy msg (if str_contains msg.encoding 'F' then msg.encoding else "bgr8")
      = .error e) :
    decode env msg = .error e := by
  unfold decode
  cases hF : str_contains msg.encoding 'F'
  · simpa [hF] using h
  · simp only [hF, if_true] at h ⊢
    rw [h]

theorem invert_error_first (env : Env) (img : Mat) (e : Exn)
    (h : env.flip_throws img 0 = some e) : invert env img = .error e := by
  unfold invert
  simp only [boolToInt, Bool.false_eq_true, if_false, h]

theorem invert_error_second (env : Env) (img : Mat) (e : Exn)
    (h0 : env.flip_throws img 0 = none) (h : env.flip_throws (cv_flip img 0) 1 = some e) :
    invert env img = .error e := by
  unfold invert
  simp only [boolToInt, Bool.false_eq_true, if_false, if_true, h0, h]

theorem inert_later (st : ImageTransportImageStreamer) (h : st.inactive_ = true)
    (evs : List (Env × Event)) :
    ∃ outs, run st evs = some (st, outs) ∧ all_calls outs = [] :=
  ⟨_, run_of_inactive st h evs, all_calls_replicate_nil st _⟩

/-- C5. A failure deactivates the session.
First, what a failure does in `imageCallback`, for an active session and a frame that is
not skipped: the call returns, and if the decoder throws, or one of the two flips of a
session with the invert flag, or `putText` in a session with the timestamp flag, or the
write primitive, then that exception is the one a handler catches, nothing more is
written, and the session is inactive.  (The resize is never reached.)
Second, the same for the write primitive in `restreamFrame`.
Third, whenever a handler of either function has caught an exception, the session is
inactive and every later sequence of calls makes no call to the outside.
Last, `imageCallback` fails to return only by the trap of `%`, which none of these
failures causes. -/
theorem failure_deactivates (env : Env) (self : ImageTransportImageStreamer) :
    (∀ msg, self.inactive_ = false →
      int_rem (wrapInt32 (self.n_frame_ + 1)) (wrapInt32 (self.skip_n_ + 1)) = some 0 →
      ∃ o, imageCallback env self msg = some o ∧
        (∀ e, env.toCvCopy msg
            (if str_contains msg.encoding 'F' then msg.encoding else "bgr8") = .error e →
          o.exn = some e ∧ o.calls = [] ∧ o.state.inactive_ = true) ∧
        (∀ img e, decode env msg = .ok img → self.invert_ = true →
          env.flip_throws img 0 = some e →
          o.exn = some e ∧ o.calls = [] ∧ o.state.inactive_ = true) ∧
        (∀ img e, decode env msg = .ok img → self.invert_ = true →
          env.flip_throws img 0 = none → env.flip_throws (cv_flip img 0) 1 = some e →
          o.exn = some e ∧ o.calls = [] ∧ o.state.inactive_ = true) ∧
        (∀ img sized e, decode env msg = .ok img →
          (if self.invert_ then invert env img else .ok img) = .ok sized →
          self.timestamp_ = true →
          env.putText sized (stampToString env.localtime env.now) = .error e →
          o.exn = some e ∧ writes o.calls = [] ∧ o.state.inactive_ = true) ∧
        (∀ img sized sent e, decode env msg = .ok img →
          (if self.invert_ then invert env img else .ok img) = .ok sized →
          (if self.timestamp_ then env.putText sized (stampToString env.localtime env.now)
            else .ok sized) = .ok sent →
          env.sendImage sent msg.header_stamp = .error e →
          o.exn = some e ∧ writes o.calls = [(sent, msg.header_stamp)] ∧
          o.state.inactive_ = true)) ∧
    (∀ max_age e, self.inactive_ = false → self.initialized_ = true →
      env.now.toNSec - self.last_frame.toNSec > max_age →
      env.sendImage self.output_size_image env.now_send = .error e →
      (restreamFrame env self max_age).exn = some e ∧
      (restreamFrame env self max_age).state.inactive_ = true) ∧
    (∀ msg o e, imageCallback env self msg = some o → o.exn = some e →
      o.state.inactive_ = true ∧
      ∀ evs, ∃ outs, run o.state evs = some (o.state, outs) ∧ all_calls outs = []) ∧
    (∀ max_age e, (restreamFrame env self max_age).exn = some e →
      (restreamFrame env self max_age).state.inactive_ = true ∧
      ∀ evs, ∃ outs, run (restreamFrame env self max_age).state evs =
        some ((restreamFrame env self max_age).state, outs) ∧ all_calls outs = []) ∧
    (∀ msg, imageCallback env self msg = none ↔
      (self.inactive_ = false ∧
        (wrapInt32 (self.skip_n_ + 1) = 0 ∨
          (wrapInt32 (self.n_frame_ + 1) = INT_MIN ∧ wrapInt32 (self.skip_n_ + 1) = -1)))) := by
  refine ⟨?_, ?_, ?_, ?_, fun msg => imageCallback_eq_none env self msg⟩
  · intro msg hact hacc
    have caught : ∀ e, (imageCallback_try env
          { self with n_frame_ := wrapInt32 (self.n_frame_ + 1) } msg).exn = some e →
        (catch_all (imageCallback_try env
          { self with n_frame_ := wrapInt32 (self.n_frame_ + 1) } msg)).exn = some e ∧
        (catch_all (imageCallback_try env
          { self with n_frame_ := wrapInt32 (self.n_frame_ + 1) } msg)).state.inactive_
            = true := fun e he =>
      ⟨by rw [catch_all_exn]; exact he, catch_all_inactive _ e he⟩
    refine ⟨_, imageCallback_accepted env self msg hact hacc, ?_, ?_, ?_, ?_, ?_⟩
    · intro e he
      have ht := try_decode_error env
        { self with n_frame_ := wrapInt32 (self.n_frame_ + 1) } msg e (decode_error env msg e he)
      obtain ⟨c1, c2⟩ := caught e (by rw [ht])
      exact ⟨c1, by rw [catch_all_calls, ht], c2⟩
    · intro img e hd hinv hf
      obtain ⟨t1, t2⟩ := try_invert_error env
        { self with n_frame_ := wrapInt32 (self.n_frame_ + 1) } msg img e hd
        (by simp only [hinv, if_true]; exact invert_error_first env img e hf)
      obtain ⟨c1, c2⟩ := caught e t1
      exact ⟨c1, by rw [catch_all_calls, t2], c2⟩
    · intro img e hd hinv h0 hf
      obtain ⟨t1, t2⟩ := try_invert_error env
        { self with n_frame_ := wrapInt32 (self.n_frame_ + 1) } msg img e hd
        (by simp only [hinv, if_true]; exact invert_error_second env img e h0 hf)
      obtain ⟨c1, c2⟩ := caught e t1
      exact ⟨c1, by rw [catch_all_calls, t2], c2⟩
    · intro img sized e hd hi hts hp
      obtain ⟨t1, t2, _⟩ := try_putText_error env
        { self with n_frame_ := wrapInt32 (self.n_frame_ + 1) } msg img sized e hd hi hts hp
      obtain ⟨c1, c2⟩ := caught e t1
      exact ⟨c1, by rw [catch_all_calls, t2]; rfl, c2⟩
    · intro img sized sent e hd hi hp hs
      obtain ⟨t1, t2, _⟩ := try_sent env
        { self with n_frame_ := wrapInt32 (self.n_frame_ + 1) } msg img sized sent hd hi hp
      rw [hs] at t2
      obtain ⟨c1, c2⟩ := caught e t2
      refine ⟨c1, ?_, c2⟩
      rw [catch_all_calls, t1]
      cases self.timestamp_ <;> simp [writes]
  · intro max_age e hact hinit hage hs
    have hr : restreamFrame env self max_age = catch_all (restreamFrame_try env self max_age) := by
      simp [restreamFrame, hact, hinit]
    have ht : (restreamFrame_try env self max_age).exn = some e := by
      unfold restreamFrame_try
      rw [if_pos (by omega), hs]
    rw [hr]
    exact ⟨by rw [catch_all_exn]; exact ht, catch_all_inactive _ e ht⟩
  · intro msg o e ho he
    have hin : o.state.inactive_ = true := by
      rcases imageCallback_cases env self msg o ho with ⟨_, hn⟩ | hc
      · rw [hn] at he
        cases he
      · subst hc
        rw [catch_all_exn] at he
        exact catch_all_inactive _ e he
    exact ⟨hin, inert_later _ hin⟩
  · intro max_age e he
    have hin : (restreamFrame env self max_age).state.inactive_ = true := by
      unfold restreamFrame at he ⊢
      split at he
      · cases he
      · rename_i hc
        rw [if_neg hc]
        rw [catch_all_exn] at he
        exact catch_all_inactive _ e he
    exact ⟨hin, inert_later _ hin⟩

/-- C7 fails as stated.  A frame with capture stamp 00:00:05 that is processed when the
clock reads 00:00:20, in a session with the timestamp flag: the text passed to `putText`
is `00:00:20.0`, and the rendering of the capture stamp would be `00:00:05.0`.  So it is
not true that the overlay text is always the rendering of the stamp of the message. -/
theorem overlay_text_is_not_capture_time :
    (∃ o text, imageCallback (calm ⟨[[[1]]]⟩ ⟨20, 0⟩)
        (start ["/cam"] (ImageTransportImageStreamer.ctor request_overlay))
        (bgr8_msg ⟨5, 0⟩) = some o ∧
      o.calls = [Call.putText ⟨[[[1]]]⟩ text, Call.sendImage ⟨[[[1]]]⟩ ⟨5, 0⟩] ∧
      text = "00:00:20.0" ∧
      stampToString (calm ⟨[[[1]]]⟩ ⟨20, 0⟩).localtime (bgr8_msg ⟨5, 0⟩).header_stamp =
        "00:00:05.0") ∧
    ¬ (∀ (env : Env) (self : ImageTransportImageStreamer) (msg : Image) (o : Outcome)
        (img : Mat) (text : String),
        self.timestamp_ = true → imageCallback env self msg = some o →
        Call.putText img text ∈ o.calls →
        text = stampToString env.localtime msg.header_stamp) := by
  have h20 : stampToString utc ⟨20, 0⟩ = "00:00:20.0" := by
    rw [stampToString_chars utc 20 0 (by decide)]
    decide
  have h5 : stampToString utc ⟨5, 0⟩ = "00:00:05.0" := by
    rw [stampToString_chars utc 5 0 (by decide)]
    decide
  refine ⟨⟨_, stampToString utc ⟨20, 0⟩, rfl, rfl, h20, h5⟩, fun h => ?_⟩
  have heq : stampToString utc ⟨20, 0⟩ = stampToString utc ⟨5, 0⟩ :=
    h (calm ⟨[[[1]]]⟩ ⟨20, 0⟩)
      (start ["/cam"] (ImageTransportImageStreamer.ctor request_overlay))
      (bgr8_msg ⟨5, 0⟩) _ ⟨[[[1]]]⟩ (stampToString utc ⟨20, 0⟩) rfl rfl
      (List.mem_cons_self _ _)
  rw [h20, h5] at heq
  exact absurd heq (by decide)

/-- C5, at a viewer that has disconnected, so that the write primitive throws (in the call
for the first frame and in a resend of the watchdog), at a decoder that throws, at a flip
that throws and at a `putText` that throws. -/
theorem failure_deactivates_witness :
    (∃ o, imageCallback (disconnected ⟨[[[1]]]⟩ ⟨13, 0⟩)
        (start ["/cam"] (ImageTransportImageStreamer.ctor (request_cam none none none)))
        (bgr8_msg ⟨12, 0⟩) = some o ∧
      o.exn = some Exn.system_error ∧
      writes o.calls = [(⟨[[[1]]]⟩, ⟨12, 0⟩)] ∧
      o.state.inactive_ = true ∧
      ∀ evs, ∃ outs, run o.state evs = some (o.state, outs) ∧ all_calls outs = []) ∧
    ((restreamFrame (disconnected ⟨[[[1]]]⟩ ⟨13, 0⟩) (cached_session ⟨[[[7]]]⟩ ⟨10, 0⟩)
        2000000000).exn = some Exn.system_error ∧
      (restreamFrame (disconnected ⟨[[[1]]]⟩ ⟨13, 0⟩) (cached_session ⟨[[[7]]]⟩ ⟨10, 0⟩)
        2000000000).state.inactive_ = true) ∧
    (∃ o, imageCallback (faulty ⟨[[[1]]]⟩ ⟨13, 0⟩ (some Exn.cv_bridge_Exception) none none)
        (start ["/cam"] (ImageTransportImageStreamer.ctor (request_cam none none none)))
        (bgr8_msg ⟨12, 0⟩) = some o ∧
      o.exn = some Exn.cv_bridge_Exception ∧ o.calls = [] ∧ o.state.inactive_ = true) ∧
    (∃ o, imageCallback (faulty ⟨[[[1]]]⟩ ⟨13, 0⟩ none (some Exn.cv_Exception) none)
        (start ["/cam"] (ImageTransportImageStreamer.ctor (request_flags true false)))
        (bgr8_msg ⟨12, 0⟩) = some o ∧
      o.exn = some Exn.cv_Exception ∧ o.calls = [] ∧ o.state.inactive_ = true) ∧
    (∃ o, imageCallback (faulty ⟨[[[1]]]⟩ ⟨13, 0⟩ none none (some Exn.cv_Exception))
        (start ["/cam"] (ImageTransportImageStreamer.ctor (request_flags false true)))
        (bgr8_msg ⟨12, 0⟩) = some o ∧
      o.exn = some Exn.cv_Exception ∧ writes o.calls = [] ∧ o.state.inactive_ = true) := by
  obtain ⟨o1, h1, _, _, _, _, w1⟩ := (failure_deactivates (disconnected ⟨[[[1]]]⟩ ⟨13, 0⟩)
    (start ["/cam"] (ImageTransportImageStreamer.ctor (request_cam none none none)))).1
    (bgr8_msg ⟨12, 0⟩) rfl rfl
  obtain ⟨x1, x2, x3⟩ := w1 ⟨[[[1]]]⟩ ⟨[[[1]]]⟩ ⟨[[[1]]]⟩ Exn.system_error rfl rfl rfl rfl
  obtain ⟨o2, h2, d2, _⟩ := (failure_deactivates
    (faulty ⟨[[[1]]]⟩ ⟨13, 0⟩ (some Exn.cv_bridge_Exception) none none)
    (start ["/cam"] (ImageTransportImageStreamer.ctor (request_cam none none none)))).1
    (bgr8_msg ⟨12, 0⟩) rfl rfl
  obtain ⟨o3, h3, _, f3, _⟩ := (failure_deactivates
    (faulty ⟨[[[1]]]⟩ ⟨13, 0⟩ none (some Exn.cv_Exception) none)
    (start ["/cam"] (ImageTransportImageStreamer.ctor (request_flags true false)))).1
    (bgr8_msg ⟨12, 0⟩) rfl rfl
  obtain ⟨o4, h4, _, _, _, p4, _⟩ := (failure_deactivates
    (faulty ⟨[[[1]]]⟩ ⟨13, 0⟩ none none (some Exn.cv_Exception))
    (start ["/cam"] (ImageTransportImageStreamer.ctor (request_flags false true)))).1
    (bgr8_msg ⟨12, 0⟩) rfl rfl
  exact ⟨⟨o1, h1, x1, x2, x3,
      ((failure_deactivates (disconnected ⟨[[[1]]]⟩ ⟨13, 0⟩)
        (start ["/cam"] (ImageTransportImageStreamer.ctor (request_cam none none none)))).2.2.1
        (bgr8_msg ⟨12, 0⟩) o1 Exn.system_error h1 x1).2⟩,
    (failure_deactivates (disconnected ⟨[[[1]]]⟩ ⟨13, 0⟩)
      (cached_session ⟨[[[7]]]⟩ ⟨10, 0⟩)).2.1 2000000000 Exn.system_error rfl rfl
      (by decide) rfl,
    ⟨o2, h2, d2 Exn.cv_bridge_Exception rfl⟩,
    ⟨o3, h3, f3 ⟨[[[1]]]⟩ Exn.cv_Exception rfl rfl rfl⟩,
    ⟨o4, h4, p4 ⟨[[[1]]]⟩ ⟨[[[1]]]⟩ Exn.cv_Exception rfl rfl rfl rfl⟩⟩

/-- C7, amended.  In a session with the timestamp flag, whenever a call of
`imageCallback` reaches the outside at all, its first call is `putText`, and the text is
the `HH:MM:SS.d` rendering of the clock reading taken while the frame is processed (the
value stored in `last_frame`), whatever the stamp of the message; the image drawn on is
the decoded (and, if requested, inverted) frame as the resize step left it.  When
`putText` returns, the drawn frame is installed in the cache and then handed to the
write primitive with the stamp of the message, and that is the only other call; when
`putText` throws there is no other call. -/
theorem overlay_shows_processing_time (env : Env) (self : ImageTransportImageStreamer)
    (msg : Image) (o : Outcome) (hts : self.timestamp_ = true)
    (hcall : imageCallback env self msg = some o) (hacc : o.calls ≠ []) :
    ∃ img sized rest, decode env msg = .ok img ∧
      (if self.invert_ then invert env img else .ok img) = .ok sized ∧
      o.calls = Call.putText sized (stampToString env.localtime env.now) :: rest ∧
      o.state.last_frame = env.now ∧
      (∀ drawn, env.putText sized (stampToString env.localtime env.now) = .ok drawn →
        rest = [Call.sendImage drawn msg.header_stamp] ∧
        o.state.output_size_image = drawn) ∧
      (∀ e, env.putText sized (stampToString env.localtime env.now) = .error e →
        rest = [] ∧ o.exn = some e) := by
  rcases imageCallback_cases env self msg o hcall with ⟨hn, _⟩ | hc
  · exact absurd hn hacc
  · subst hc
    rw [catch_all_calls] at hacc
    cases hd : decode env msg with
    | error e =>
      rw [try_decode_error env _ msg e hd] at hacc
      exact absurd rfl hacc
    | ok img =>
      cases hi : (if self.invert_ then invert env img else Except.ok img) with
      | error e =>
        exact absurd (try_invert_error env
          { self with n_frame_ := wrapInt32 (self.n_frame_ + 1) } msg img e hd hi).2 hacc
      | ok sized =>
        cases hp : env.putText sized (stampToString env.localtime env.now) with
        | error e =>
          obtain ⟨t1, t2, t3⟩ := try_putText_error env
            { self with n_frame_ := wrapInt32 (self.n_frame_ + 1) } msg img sized e hd hi hts hp
          refine ⟨img, sized, [], rfl, hi, ?_, ?_, ?_, ?_⟩
          · rw [catch_all_calls, t2]
          · rw [catch_all_last_frame, t3]
          · intro drawn hdr
            rw [hp] at hdr
            cases hdr
          · intro e2 he2
            rw [hp] at he2
            cases he2
            exact ⟨rfl, by rw [catch_all_exn]; exact t1⟩
        | ok drawn =>
          obtain ⟨t1, _, t3, t4, _⟩ := try_sent env
            { self with n_frame_ := wrapInt32 (self.n_frame_ + 1) } msg img sized drawn hd hi
            (by simp only [hts, if_true]; exact hp)
          refine ⟨img, sized, [Call.sendImage drawn msg.header_stamp], rfl, hi, ?_, ?_, ?_, ?_⟩
          · rw [catch_all_calls, t1]
            simp only [hts, if_true]
          · rw [catch_all_last_frame, t4]
          · intro drawn2 hdr
            rw [hp] at hdr
            cases hdr
            exact ⟨rfl, by rw [catch_all_output_size_image]; exact t3⟩
          · intro e2 he2
            rw [hp] at he2
            cases he2

/-- C7 amended, at a frame stamped 00:00:05 and processed at 00:00:20: the text is drawn
and the drawn frame is sent with the stamp 00:00:05. -/
theorem overlay_shows_processing_time_witness :
    ∃ o, imageCallback (calm ⟨[[[1]]]⟩ ⟨20, 0⟩)
        (start ["/cam"] (ImageTransportImageStreamer.ctor request_overlay))
        (bgr8_msg ⟨5, 0⟩) = some o ∧
      o.calls ≠ [] ∧
      ∃ img sized rest, decode (calm ⟨[[[1]]]⟩ ⟨20, 0⟩) (bgr8_msg ⟨5, 0⟩) = .ok img ∧
        (if (start ["/cam"] (ImageTransportImageStreamer.ctor request_overlay)).invert_
          then invert (calm ⟨[[[1]]]⟩ ⟨20, 0⟩) img else .ok img) = .ok sized ∧
        o.calls = Call.putText sized (stampToString (calm ⟨[[[1]]]⟩ ⟨20, 0⟩).localtime
          (calm ⟨[[[1]]]⟩ ⟨20, 0⟩).now) :: rest ∧
        o.state.last_frame = (calm ⟨[[[1]]]⟩ ⟨20, 0⟩).now ∧
        rest = [Call.sendImage sized (bgr8_msg ⟨5, 0⟩).header_stamp] ∧
        o.state.output_size_image = sized := by
  have hne : (catch_all (imageCallback_try (calm ⟨[[[1]]]⟩ ⟨20, 0⟩)
      { start ["/cam"] (ImageTransportImageStreamer.ctor request_overlay) with n_frame_ := 1 }
      (bgr8_msg ⟨5, 0⟩))).calls ≠ [] := by
    rw [catch_all_calls]
    exact fun h => nomatch h
  obtain ⟨img, sized, rest, h1, h2, h3, h4, h5, _⟩ :=
    overlay_shows_processing_time (calm ⟨[[[1]]]⟩ ⟨20, 0⟩)
      (start ["/cam"] (ImageTransportImageStreamer.ctor request_overlay))
      (bgr8_msg ⟨5, 0⟩) _ rfl rfl hne
  exact ⟨_, rfl, hne, img, sized, rest, h1, h2, h3, h4, (h5 sized rfl).1, (h5 sized rfl).2⟩

end web_video_server
